import Mathlib

set_option maxRecDepth 2000

/-!
Verification of the dataset-fusion core of the diploma-energy-market
repository: the loaders and merge engine of `src/build_idm_dataset.py` and the
resampler / rolling-feature code of `src/fetch_weather.py`, shallowly embedded
over an exact dataframe model (rationals for numbers and timestamps, an
explicit `null` for NaN/NaT).
-/

/-- Cell value of a dataframe: a number, a string, a datetime (encoded as
rational hours since a fixed origin), or missing (NaN/NaT). -/
inductive Val where
  | num (q : ℚ)
  | str (s : String)
  | dt (t : ℚ)
  | null
  deriving DecidableEq, Repr

/-- Numeric content of a cell; `none` for NaN and non-numeric cells, as seen
by a NaN-skipping numeric aggregation. -/
def Val.toNum : Val → Option ℚ
  | .num q => some q
  | _ => none

/-- Datetime content of a cell; `none` for NaT and non-datetime cells. -/
def Val.toTs : Val → Option ℚ
  | .dt t => some t
  | _ => none

/-- Whether a cell is compatible with a numeric dtype (a number or NaN);
datetime and string cells are not. -/
def Val.numLike : Val → Bool
  | .num _ => true
  | .null => true
  | _ => false

/-- Total boolean order used where pandas sorts group keys or a datetime
index; on the datetime and numeric cells arising in this pipeline it is the
numeric order (the remaining cases never arise and are ordered trivially). -/
def Val.leB : Val → Val → Bool
  | .dt a, .dt b => decide (a ≤ b)
  | .num a, .num b => decide (a ≤ b)
  | _, _ => true

/-- Insert into a sorted list: before the first element not below `a`. -/
def insertLe {α : Type} (le : α → α → Bool) (a : α) : List α → List α
  | [] => [a]
  | b :: bs => if le a b then a :: b :: bs else b :: insertLe le a bs

/-- Insertion sort: the ascending reordering used wherever Python or pandas
sorts (file listings, group keys, a datetime index). On lists without
duplicate sort keys it agrees with any stable ascending sort. -/
def sortByLe {α : Type} (le : α → α → Bool) : List α → List α
  | [] => []
  | a :: as => insertLe le a (sortByLe le as)

/-- A dataframe: named columns and rows of cells, the j-th cell of a row
belonging to the j-th column. -/
structure Table where
  cols : List String
  rows : List (List Val)
  deriving DecidableEq, Repr

/-- Cell of row `r` in the column named `c` (the first column with that name,
as in pandas column lookup); NaN when the column is absent. -/
def cellIn (cols : List String) (r : List Val) (c : String) : Val :=
  r.getD (cols.indexOf c) Val.null

/-- pandas `DataFrame.empty`: some axis has length zero. -/
def Table.isEmptyB (t : Table) : Bool := t.rows.isEmpty || t.cols.isEmpty

/-- The cells of one column, top to bottom. -/
def Table.col (t : Table) (c : String) : List Val :=
  t.rows.map (fun r => cellIn t.cols r c)

/-- pandas `select_dtypes(include=["number"]).columns`: the columns whose
cells all carry numeric dtype (numbers or NaN); datetime and string columns
are excluded. -/
def Table.numericCols (t : Table) : List String :=
  t.cols.filter (fun c => (t.col c).all Val.numLike)

/-- Column union in first-appearance order, as pandas `concat` aligns the
columns of its inputs. -/
def colUnion (ls : List (List String)) : List String :=
  ls.foldl (fun acc cs => acc ++ cs.filter (fun c => !acc.contains c)) []

/-- Re-expresses a row over a larger column list, filling columns the row's
own table lacks with NaN. -/
def alignRow (allCols cols : List String) (r : List Val) : List Val :=
  allCols.map (fun c => if cols.contains c then cellIn cols r c else Val.null)

/-- pandas `concat(frames, ignore_index=True)`: rows stacked in order, columns
aligned by name, entries for missing columns NaN. -/
def Table.concatT (ts : List Table) : Table :=
  let allCols := colUnion (ts.map Table.cols)
  ⟨allCols, ts.flatMap (fun t => t.rows.map (alignRow allCols t.cols))⟩

/-- `df.rename(columns=...)` applied over all column names. -/
def Table.renameCols (t : Table) (f : String → String) : Table :=
  ⟨t.cols.map f, t.rows⟩

/-- `df[c] = v` with a scalar: overwrite the column in place when it exists,
else append it on the right. -/
def Table.addConstCol (t : Table) (c : String) (v : Val) : Table :=
  if t.cols.contains c then
    ⟨t.cols, t.rows.map (fun r => r.set (t.cols.indexOf c) v)⟩
  else
    ⟨t.cols ++ [c], t.rows.map (fun r => r ++ [v])⟩

/-- `df[c] = f(df[c])`: elementwise map over one column. -/
def Table.mapCol (t : Table) (c : String) (f : Val → Val) : Table :=
  ⟨t.cols, t.rows.map (fun r => r.set (t.cols.indexOf c) (f (cellIn t.cols r c)))⟩

/-- Row filter keeping the column set (boolean-mask indexing). -/
def Table.filterRows (t : Table) (p : List Val → Bool) : Table :=
  ⟨t.cols, t.rows.filter p⟩

/-- pandas `mean` over a list of cells: NaN-skipping arithmetic mean, NaN when
no numeric observation is present. -/
def meanCells (cells : List Val) : Val :=
  let qs := cells.filterMap Val.toNum
  if qs.isEmpty then Val.null else Val.num (qs.sum / (qs.length : ℚ))

/-- `df.groupby(key, as_index=False).agg({c: "mean" for c in aggCols})`: one
output row per distinct key value, groups sorted by key, the key column first,
then the NaN-skipping mean of each aggregated column within the group. -/
def Table.groupbyMean (t : Table) (key : String) (aggCols : List String) : Table :=
  let ks := sortByLe Val.leB (t.col key).dedup
  ⟨key :: aggCols,
    ks.map (fun k =>
      let grp := t.rows.filter (fun r => cellIn t.cols r key == k)
      k :: aggCols.map (fun c => meanCells (grp.map (fun r => cellIn t.cols r c))))⟩

/-- `left.merge(right, on=key, how="left")`: every left row retained in order;
a left row is combined with each matching right row's non-key cells, and an
unmatched left row gets NaN in all right columns. (pandas suffixing of
overlapping non-key column names is not modelled; the pipeline's sources do
not share non-key names and no claim concerns merged column naming.) -/
def Table.leftMerge (t₁ t₂ : Table) (key : String) : Table :=
  let rcols := t₂.cols.filter (fun c => !(c == key))
  ⟨t₁.cols ++ rcols,
    t₁.rows.flatMap (fun r =>
      let k := cellIn t₁.cols r key
      let ms := t₂.rows.filter (fun r₂ => cellIn t₂.cols r₂ key == k)
      if ms.isEmpty then [r ++ rcols.map (fun _ => Val.null)]
      else ms.map (fun r₂ => r ++ rcols.map (fun c => cellIn t₂.cols r₂ c)))⟩

/-- Month length in the proleptic Gregorian calendar, as validated by the
Python `datetime` constructor. -/
def daysInMonth (y m : ℕ) : ℕ :=
  if m = 2 then (if (y % 4 = 0 && y % 100 != 0) || y % 400 = 0 then 29 else 28)
  else if m = 4 || m = 6 || m = 9 || m = 11 then 30 else 31

/-- A calendar date as carried by `datetime.date`. -/
structure Date where
  y : ℕ
  m : ℕ
  d : ℕ
  deriving DecidableEq, Repr

/-- The constraints the `datetime` constructor enforces on a parsed date. -/
def Date.valid (dt : Date) : Bool :=
  1 ≤ dt.y && dt.y ≤ 9999 && 1 ≤ dt.m && dt.m ≤ 12 &&
    1 ≤ dt.d && dt.d ≤ daysInMonth dt.y dt.m

/-- Order-preserving numeric code of a date (lexicographic in year, month, day
since month < 16 and day < 32); it stands in for `datetime.date` comparison
and for the day part of encoded timestamps. -/
def Date.code (dt : Date) : ℕ := dt.y * 512 + dt.m * 32 + dt.d

/-- Encoded timestamp on day `dt` at (fractional) hour `h`. -/
def Date.ts (dt : Date) (h : ℚ) : ℚ := (dt.code : ℚ) * 24 + h

/-- Day code of an encoded timestamp, as `.dt.date` on a datetime column. -/
def tsDay (t : ℚ) : ℤ := Rat.floor (t / 24)

/-- Numeric value of a decimal digit character. -/
def digitVal (c : Char) : ℕ := c.toNat - 48

/-- `strptime(s, "%Y%m%d")` on an 8-character token: four-digit year,
zero-padded month 01–12 and day, the whole validated by the `datetime`
constructor; `none` on any failure. The naming convention is fixed-width, so
strptime's extra tolerance for 6–7 character all-digit strings with unpadded
month or day is not modelled — such basenames do not follow the convention. -/
def parseYmd8 (cs : List Char) : Option Date :=
  if cs.length = 8 && cs.all Char.isDigit then
    let n := cs.foldl (fun acc c => acc * 10 + digitVal c) 0
    let dt : Date := ⟨n / 10000, n / 100 % 100, n % 100⟩
    if dt.valid then some dt else none
  else none

/-- `parse_fname_date` of build_idm_dataset.py: the basename (the part of the
path after the last separator) truncated to its first eight characters and
parsed as `%Y%m%d`; `None` when parsing fails. -/
def parse_fname_date (fname : String) : Option Date :=
  let base := (fname.toList.reverse.takeWhile (fun c => !(c == '/'))).reverse
  parseYmd8 (base.take 8)

/-- A file sitting in a source folder: its name and its sheet as parsed by
`read_excel`. DELIVERY_MTU cells that `pandas.to_datetime` can coerce are
modelled as already carrying the datetime variant; anything else coerces
to NaT. -/
structure XFile where
  name : String
  df : Table
  deriving DecidableEq, Repr

/-- Boolean string order matching Python's lexicographic comparison. -/
def strLe (a b : String) : Bool := !(decide (b < a))

/-- `name.endswith(suffix)` (character-level suffix test). -/
def strEndsWith (name suffix : String) : Bool :=
  suffix.toList.isSuffixOf name.toList

/-- `sorted(f for f in os.listdir(folder) if f.endswith(".xlsx"))` of both
loaders. -/
def listXlsx (files : List XFile) : List XFile :=
  sortByLe (fun a b => strLe a.name b.name)
    (files.filter (fun f => strEndsWith f.name ".xlsx"))

/-- Filename-date filter shared by both loaders: keep a file when its name's
date token parses and the parsed date lies in `[start_date, end_date]`. -/
def fnameSelected (startD endD : Date) (f : XFile) : Bool :=
  match parse_fname_date f.name with
  | none => false
  | some d => startD.code ≤ d.code && d.code ≤ endD.code

/-- The files a loader actually reads: the sorted `.xlsx` listing restricted
by the filename-date filter (build_idm_dataset.py lines 56–69 / 136–149). -/
def collectedFiles (files : List XFile) (startD endD : Date) : List XFile :=
  (listXlsx files).filter (fnameSelected startD endD)

/-- `to_datetime(df[key], errors="coerce")` on a cell: datetimes pass through,
everything else becomes NaT. -/
def coerceTs : Val → Val
  | .dt t => .dt t
  | _ => .null

/-- Shared per-file body of both loaders (build_idm_dataset.py lines 73–91 and
153–165): require the DELIVERY_MTU column, coerce it to datetime and drop the
failures, filter by the in-row delivery date, and drop the file entirely when
no row remains. -/
def processFile (startD endD : Date) (f : XFile) : Option Table :=
  if !(f.df.cols.contains "DELIVERY_MTU") then none
  else
    let t₁ := f.df.mapCol "DELIVERY_MTU" coerceTs
    let t₂ := t₁.filterRows (fun r => !(cellIn t₁.cols r "DELIVERY_MTU" == Val.null))
    let t₃ := t₂.filterRows (fun r =>
      match (cellIn t₂.cols r "DELIVERY_MTU").toTs with
      | some ts => decide ((startD.code : ℤ) ≤ tsDay ts) && decide (tsDay ts ≤ (endD.code : ℤ))
      | none => false)
    if t₃.rows.isEmpty then none else some t₃

/-- Aggregation stage of the day-ahead loader (build_idm_dataset.py lines
108–116): arithmetic-mean groupby over the numeric columns only. -/
def damAggregate (dam : Table) : Table :=
  dam.groupbyMean "DELIVERY_MTU" dam.numericCols

/-- `load_dam_folder`: collect the dated `.xlsx` files, load and filter each,
return a key-only empty frame when none contributes, else concatenate, prefix
every non-key column with `DAM_`, and mean-aggregate by DELIVERY_MTU. -/
def load_dam_folder (files : List XFile) (startD endD : Date) : Table :=
  let frames := (collectedFiles files startD endD).filterMap (processFile startD endD)
  if frames.isEmpty then ⟨["DELIVERY_MTU"], []⟩
  else
    let dam := Table.concatT frames
    let renamed := dam.renameCols (fun c => if c == "DELIVERY_MTU" then c else "DAM_" ++ c)
    damAggregate renamed

/-- Per-file intraday step: the shared processing followed by
`df["AUCTION"] = auction_name`. -/
def idaProcessFile (auction : String) (startD endD : Date) (f : XFile) : Option Table :=
  (processFile startD endD f).map (fun t => t.addConstCol "AUCTION" (Val.str auction))

/-- `load_ida_folder`: same collection and filtering as the day-ahead loader,
no renaming, the AUCTION discriminator added per file; an empty `DataFrame()`
when no file contributes. -/
def load_ida_folder (files : List XFile) (auction : String) (startD endD : Date) : Table :=
  let frames := (collectedFiles files startD endD).filterMap (idaProcessFile auction startD endD)
  if frames.isEmpty then ⟨[], []⟩
  else Table.concatT frames

/-- `load_all_idas`: concatenate the three rounds' nonempty tables; an empty
`DataFrame()` when none has rows. -/
def load_all_idas (ida1 ida2 ida3 : List XFile) (startD endD : Date) : Table :=
  let ts := [load_ida_folder ida1 "IDA1" startD endD,
             load_ida_folder ida2 "IDA2" startD endD,
             load_ida_folder ida3 "IDA3" startD endD]
  let frames := ts.filter (fun t => !t.isEmptyB)
  if frames.isEmpty then ⟨[], []⟩
  else Table.concatT frames

/-- `resample("1H").mean().reset_index()` on a DELIVERY_MTU-indexed table: one
row per hour from the first to the last observed hour, each remaining column
the NaN-skipping mean of the observations whose timestamp falls in that hour
(non-numeric cells contribute nothing to a mean). -/
def resampleHourlyMean (t : Table) : Table :=
  let hs := t.rows.filterMap (fun r => (cellIn t.cols r "DELIVERY_MTU").toTs.map Rat.floor)
  match hs with
  | [] => ⟨t.cols, []⟩
  | h :: tl =>
    let lo := tl.foldl min h
    let hi := tl.foldl max h
    let vcols := t.cols.filter (fun c => !(c == "DELIVERY_MTU"))
    ⟨"DELIVERY_MTU" :: vcols,
      (List.range (hi - lo).toNat.succ).map (fun (j : ℕ) =>
        let hh : ℤ := lo + (j : ℤ)
        let grp := t.rows.filter (fun r =>
          match (cellIn t.cols r "DELIVERY_MTU").toTs with
          | some ts => decide (Rat.floor ts = hh)
          | none => false)
        Val.dt (hh : ℚ) :: vcols.map (fun c => meanCells (grp.map (fun r => cellIn t.cols r c))))⟩

/-- `load_weather` of build_idm_dataset.py: read the CSV with its first column
parsed as datetimes, rename that column to DELIVERY_MTU, sort by it, resample
to the hourly grid by mean and reset the index. -/
def load_weather (csv : Table) : Table :=
  let renamed : Table :=
    match csv.cols with
    | [] => csv
    | _ :: rest => ⟨"DELIVERY_MTU" :: rest, csv.rows⟩
  let sorted : Table :=
    ⟨renamed.cols, sortByLe (fun r₁ r₂ =>
      Val.leB (cellIn renamed.cols r₁ "DELIVERY_MTU") (cellIn renamed.cols r₂ "DELIVERY_MTU"))
      renamed.rows⟩
  resampleHourlyMean sorted

/-- `main` of build_idm_dataset.py after argument parsing: load the day-ahead
folder, the three intraday rounds and the weather table; abort with the
diagnostic when the intraday table is empty; otherwise left-merge intraday
with day-ahead (skipped when day-ahead is empty) and then with weather. -/
def mainPipeline (dam ida1 ida2 ida3 : List XFile) (weatherCsv : Table)
    (startD endD : Date) : Except String Table :=
  let dam_all := load_dam_folder dam startD endD
  let ida_all := load_all_idas ida1 ida2 ida3 startD endD
  if ida_all.isEmptyB then
    Except.error "❌ No IDA data loaded, cannot build dataset."
  else
    let weather := load_weather weatherCsv
    let merged :=
      if !dam_all.isEmptyB then ida_all.leftMerge dam_all "DELIVERY_MTU"
      else ida_all
    Except.ok (merged.leftMerge weather "DELIVERY_MTU")

/-- Datetime-indexed frame of fetch_weather.py: the index in encoded hours,
and one cell list per row over the named columns. -/
structure WTable where
  cols : List String
  rows : List (ℚ × List Val)
  deriving DecidableEq, Repr

/-- Cell of an indexed row in the column named `c`. -/
def WTable.cellAt (t : WTable) (r : ℚ × List Val) (c : String) : Val :=
  (r.2).getD (t.cols.indexOf c) Val.null

/-- `select_dtypes(include=[np.number]).columns` on an indexed frame. -/
def WTable.numericCols (t : WTable) : List String :=
  t.cols.filter (fun c => (t.rows.map (fun r => t.cellAt r c)).all Val.numLike)

/-- Minute count of a pandas offset alias of the minute family ("15T",
"15MIN", a bare unit meaning one minute); `none` for anything else. -/
def freqMinutes (freq : String) : Option ℕ :=
  let u := String.mk (freq.toList.map Char.toUpper)
  let core :=
    if strEndsWith u "MIN" then some (u.toList.dropLast.dropLast.dropLast)
    else if strEndsWith u "T" then some u.toList.dropLast
    else none
  match core with
  | none => none
  | some [] => some 1
  | some ds => if ds.all Char.isDigit then some (ds.foldl (fun acc c => acc * 10 + digitVal c) 0) else none

/-- Last known (time, value) observation at or before instant `g`, the
observations listed in ascending time. -/
def lastAtOrBefore (pts : List (ℚ × ℚ)) (g : ℚ) : Option (ℚ × ℚ) :=
  pts.foldl (fun acc p => if p.1 ≤ g then some p else acc) none

/-- First known (time, value) observation at or after instant `g`. -/
def firstAtOrAfter (pts : List (ℚ × ℚ)) (g : ℚ) : Option (ℚ × ℚ) :=
  pts.foldr (fun p acc => if g ≤ p.1 then some p else acc) none

/-- Value of `interpolate(method="time")` at grid instant `g` given a
column's known observations in ascending time order: linear in elapsed real
time between the two neighbouring observations (an exact hit returns the
observed value), held constant after the last observation, NaN before the
first. -/
def timeInterpAt (pts : List (ℚ × ℚ)) (g : ℚ) : Val :=
  match lastAtOrBefore pts g, firstAtOrAfter pts g with
  | some p, some q =>
    if p.1 = q.1 then Val.num p.2
    else Val.num (p.2 + (q.2 - p.2) * (g - p.1) / (q.1 - p.1))
  | some p, none => Val.num p.2
  | none, _ => Val.null

/-- Value of `resample(freq).ffill()` at grid instant `g`: the last original
cell at or before `g`, NaN when there is none. -/
def ffillAt (pts : List (ℚ × Val)) (g : ℚ) : Val :=
  (pts.foldl (fun acc p => if p.1 ≤ g then some p.2 else acc) none).getD Val.null

/-- The resample grid at `m` minutes covering the observed index, anchored at
the start of the first observed day (pandas origin "start_day"): the anchored
multiples of the step from the last one not after the first observation up to
the last observation. -/
def resampleGrid (times : List ℚ) (m : ℕ) : List ℚ :=
  match times with
  | [] => []
  | t :: tl =>
    let lo := tl.foldl min t
    let hi := tl.foldl max t
    let step : ℚ := (m : ℚ) / 60
    let anchor : ℚ := ((Rat.floor (lo / 24) : ℤ) : ℚ) * 24
    let start := anchor + ((Rat.floor ((lo - anchor) / step) : ℤ) : ℚ) * step
    let n : ℕ := (Rat.floor ((hi - start) / step)).toNat.succ
    (List.range n).map (fun (j : ℕ) => start + (j : ℚ) * step)

/-- `resample_to_frequency` of fetch_weather.py: the identity on the native
hourly aliases; otherwise the numeric columns are re-gridded with time-aware
interpolation and the non-numeric columns with forward-fill, the re-gridded
non-numeric block appended after the numeric block (`Index.difference` yields
the non-numeric names in sorted order). A frequency string outside the minute
family would make pandas raise inside `resample` and is left unmodelled (the
frame is returned unchanged there). -/
def resample_to_frequency (df : WTable) (freq : String) : WTable :=
  let u := String.mk (freq.toList.map Char.toUpper)
  if u == "60T" || u == "1H" || u == "H" then df
  else
    match freqMinutes freq with
    | none => df
    | some m =>
      let sortedRows := sortByLe (fun a b => decide (a.1 ≤ b.1)) df.rows
      let grid := resampleGrid (df.rows.map (fun r => r.1)) m
      let ncols := df.numericCols
      let ocols := sortByLe strLe (df.cols.filter (fun c => !ncols.contains c))
      ⟨ncols ++ ocols,
        grid.map (fun g =>
          (g,
            ncols.map (fun c =>
              timeInterpAt (sortedRows.filterMap (fun r =>
                ((df.cellAt r c).toNum).map (fun v => (r.1, v)))) g)
            ++ ocols.map (fun c =>
              ffillAt (sortedRows.map (fun r => (r.1, df.cellAt r c))) g)))⟩

/-- Observation window of `x.rolling(w, min_periods=1)` at position `i`: the
last `min(i+1, w)` observations of the series. -/
def rollWindow (w : ℕ) (xs : List ℚ) (i : ℕ) : List ℚ :=
  (xs.take (i + 1)).drop (i + 1 - w)

/-- `x.rolling(w, min_periods=1).mean()` at position `i`; `none` is NaN. -/
def rollingMean (w : ℕ) (xs : List ℚ) (i : ℕ) : Option ℚ :=
  let win := rollWindow w xs i
  if win.length = 0 then none else some (win.sum / (win.length : ℚ))

/-- The ddof-1 sample variance underlying pandas rolling `std`: undefined
(NaN) when the window holds fewer than two observations. -/
def rollingVar (w : ℕ) (xs : List ℚ) (i : ℕ) : Option ℚ :=
  let win := rollWindow w xs i
  if win.length < 2 then none
  else
    let m := win.sum / (win.length : ℚ)
    some ((win.map (fun x => (x - m) ^ 2)).sum / ((win.length : ℚ) - 1))

/-- `x.rolling(w, min_periods=1).std()` at position `i`: the square root of
the ddof-1 sample variance, NaN when the window holds fewer than two
observations — pandas yields NaN at position 0 even with `min_periods=1`. -/
noncomputable def rollingStd (w : ℕ) (xs : List ℚ) (i : ℕ) : Option ℝ :=
  (rollingVar w xs i).map (fun v => Real.sqrt ((v : ℚ) : ℝ))

/-- The two rolling-feature series appended by `build_feature_block` for one
window size and one base column (fetch_weather.py lines 102–107). -/
noncomputable def rollFeatures (w : ℕ) (xs : List ℚ) : List (Option ℝ) × List (Option ℚ) :=
  ((List.range xs.length).map (rollingStd w xs), (List.range xs.length).map (rollingMean w xs))

/-- Concrete date fixture 2024-06-16 used to instantiate the theorems. -/
def fxD : Date := ⟨2024, 6, 16⟩

/-- Timestamp fixture: 2024-06-16 00:00, i.e. `fxD.code * 24` hours. -/
def fxT0 : ℚ := 24875904

/-- A one-file day-ahead folder whose sheet publishes the same delivery hour
twice (prices 50 and 52). -/
def fxDamFiles : List XFile :=
  [⟨"20240616_EL-DAM_Results_EN_v01.xlsx",
    ⟨["DELIVERY_MTU", "MCP"], [[Val.dt fxT0, Val.num 50], [Val.dt fxT0, Val.num 52]]⟩⟩]

/-- A one-row intraday round-1 sheet. -/
def fxIdaFile : XFile :=
  ⟨"20240616_EL-IDA1_Results_EN_v01.xlsx",
    ⟨["DELIVERY_MTU", "PRICE"], [[Val.dt fxT0, Val.num 60]]⟩⟩

/-- A one-file intraday round-1 folder. -/
def fxIdaFiles : List XFile := [fxIdaFile]

/-- The round-1 frame the intraday loader produces from `fxIdaFile`. -/
def fxIdaProcessed : Table :=
  ⟨["DELIVERY_MTU", "PRICE", "AUCTION"], [[Val.dt fxT0, Val.num 60, Val.str "IDA1"]]⟩

/-- A one-row weather CSV with an arbitrary first-column header. -/
def fxCsv : Table := ⟨["time", "temp"], [[Val.dt fxT0, Val.num 20]]⟩

/-- A file dated inside the range but with a `.csv` extension. -/
def fxCsvNamed : XFile := ⟨"20240616_results.csv", ⟨[], []⟩⟩

/-- A file dated inside the range but with a `.txt` extension. -/
def fxTxtFile : XFile := ⟨"20240616_data.txt", ⟨["DELIVERY_MTU"], [[Val.dt fxT0]]⟩⟩

/-- A concatenated, provenance-prefixed day-ahead table with one duplicated
delivery hour (at encoded instant 0). -/
def fxDamTable : Table :=
  ⟨["DELIVERY_MTU", "DAM_MCP"], [[Val.dt 0, Val.num 50], [Val.dt 0, Val.num 52]]⟩

/-- A one-column hourly weather frame. -/
def fxW : WTable := ⟨["temp"], [(0, [Val.num 1])]⟩

/-! Helper lemmas. -/

theorem insertLe_perm {α : Type} (le : α → α → Bool) (a : α) (l : List α) :
    (insertLe le a l).Perm (a :: l) := by
  induction l with
  | nil => exact List.Perm.refl _
  | cons b bs ih =>
    simp only [insertLe]
    split
    · exact List.Perm.refl _
    · exact (ih.cons b).trans (List.Perm.swap a b bs)

theorem sortByLe_perm {α : Type} (le : α → α → Bool) (l : List α) :
    (sortByLe le l).Perm l := by
  induction l with
  | nil => exact List.Perm.refl _
  | cons a as ih => exact (insertLe_perm le a (sortByLe le as)).trans (ih.cons a)

theorem cellIn_cons_self (cols : List String) (k : Val) (vs : List Val) (key : String) :
    cellIn (key :: cols) (k :: vs) key = k := by
  simp [cellIn, List.indexOf_cons_self]

theorem cellIn_cons_ne (cols : List String) (k : Val) (vs : List Val) (key c : String)
    (h : key ≠ c) : cellIn (key :: cols) (k :: vs) c = cellIn cols vs c := by
  simp [cellIn, List.indexOf_cons_ne _ h]

theorem cellIn_map (l : List String) (g : String → Val) (c : String) (h : c ∈ l) :
    cellIn l (l.map g) c = g c := by
  have hlt : l.indexOf c < l.length := List.indexOf_lt_length.mpr h
  have hlt2 : l.indexOf c < (l.map g).length := by simpa using hlt
  rw [cellIn, List.getD_eq_getElem _ _ hlt2, List.getElem_map]
  congr 1
  exact List.getElem_indexOf hlt

theorem filter_keyOf_len_le_one {α β : Type} [DecidableEq β] (kf : α → β) (k : β) :
    ∀ (l : List α), (l.map kf).Nodup → (l.filter (fun a => kf a == k)).length ≤ 1 := by
  intro l
  induction l with
  | nil => simp
  | cons a as ih =>
    intro h
    simp only [List.map_cons, List.nodup_cons] at h
    rw [List.filter_cons]
    split
    · rename_i ha
      have hak : kf a = k := by simpa using ha
      have hnil : as.filter (fun x => kf x == k) = [] := by
        rw [List.filter_eq_nil_iff]
        intro b hb hbk
        have hbk2 : kf b = k := by simpa using hbk
        have hmem : kf b ∈ as.map kf := List.mem_map_of_mem kf hb
        rw [hbk2, ← hak] at hmem
        exact h.1 hmem
      simp [hnil]
    · exact ih h.2

theorem nodup_filter_beq {α : Type} [DecidableEq α] (a : α) :
    ∀ (l : List α), l.Nodup → a ∈ l → l.filter (fun x => x == a) = [a] := by
  intro l
  induction l with
  | nil => simp
  | cons b bs ih =>
    intro h hm
    simp only [List.nodup_cons] at h
    rw [List.filter_cons]
    rcases List.mem_cons.mp hm with hb | hbs
    · subst hb
      have hnil : bs.filter (fun x => x == a) = [] := by
        rw [List.filter_eq_nil_iff]
        intro x hx hxa
        have : x = a := by simpa using hxa
        exact h.1 (this ▸ hx)
      simp [hnil]
    · have hba : (b == a) = false := by
        simp only [beq_eq_false_iff_ne, ne_eq]
        intro hba
        exact h.1 (hba ▸ hbs)
      simp only [hba, Bool.false_eq_true, if_false]
      exact ih h.2 hbs

theorem sum_map_ones {α : Type} (g : α → ℕ) :
    ∀ (l : List α), (∀ a ∈ l, g a = 1) → (l.map g).sum = l.length := by
  intro l
  induction l with
  | nil => simp
  | cons a as ih =>
    intro h
    rw [List.map_cons, List.sum_cons, h a (List.mem_cons_self a as),
      ih (fun b hb => h b (List.mem_cons_of_mem a hb)), List.length_cons]
    omega

theorem leftMerge_rows_length (t₁ t₂ : Table) (key : String)
    (h : (t₂.rows.map (fun r => cellIn t₂.cols r key)).Nodup) :
    (t₁.leftMerge t₂ key).rows.length = t₁.rows.length := by
  simp only [Table.leftMerge]
  rw [List.flatMap_def, List.length_flatten, List.map_map]
  apply sum_map_ones
  intro r _
  simp only [Function.comp_apply]
  split
  · simp
  · rename_i hne
    rw [List.length_map]
    have hle : (t₂.rows.filter
        (fun r₂ => cellIn t₂.cols r₂ key == cellIn t₁.cols r key)).length ≤ 1 :=
      filter_keyOf_len_le_one (fun r₂ => cellIn t₂.cols r₂ key)
        (cellIn t₁.cols r key) t₂.rows h
    have hpos : 0 < (t₂.rows.filter
        (fun r₂ => cellIn t₂.cols r₂ key == cellIn t₁.cols r key)).length := by
      rcases Nat.eq_zero_or_pos (t₂.rows.filter
        (fun r₂ => cellIn t₂.cols r₂ key == cellIn t₁.cols r key)).length with h0 | h0
      · exact absurd (List.isEmpty_iff.mpr (List.length_eq_zero.mp h0)) hne
      · exact h0
    omega

theorem groupbyMean_keys (t : Table) (key : String) (aggCols : List String) :
    (t.groupbyMean key aggCols).rows.map (fun r => cellIn (key :: aggCols) r key)
      = sortByLe Val.leB (t.col key).dedup := by
  simp only [Table.groupbyMean, List.map_map]
  have hpt : ∀ k ∈ sortByLe Val.leB (t.col key).dedup,
      ((fun r => cellIn (key :: aggCols) r key) ∘ fun k =>
        k :: aggCols.map (fun c => meanCells
          ((t.rows.filter (fun r => cellIn t.cols r key == k)).map
            (fun r => cellIn t.cols r c)))) k = k := by
    intro k _
    exact cellIn_cons_self _ _ _ _
  rw [List.map_congr_left hpt, List.map_id']

theorem groupbyMean_keys_nodup (t : Table) (key : String) (aggCols : List String) :
    ((t.groupbyMean key aggCols).rows.map (fun r => cellIn (key :: aggCols) r key)).Nodup := by
  rw [groupbyMean_keys]
  exact ((sortByLe_perm Val.leB _).nodup_iff).mpr (List.nodup_dedup _)

theorem load_dam_keys_nodup (files : List XFile) (s e : Date) :
    ((load_dam_folder files s e).rows.map
      (fun r => cellIn (load_dam_folder files s e).cols r "DELIVERY_MTU")).Nodup := by
  simp only [load_dam_folder]
  split
  · simp
  · exact groupbyMean_keys_nodup _ _ _

theorem resampleHourlyMean_keys_nodup (t : Table) :
    ((resampleHourlyMean t).rows.map
      (fun r => cellIn (resampleHourlyMean t).cols r "DELIVERY_MTU")).Nodup := by
  simp only [resampleHourlyMean]
  split
  · simp
  · rename_i h tl heq
    rw [List.map_map]
    refine List.Nodup.map_on ?_ (List.nodup_range _)
    intro a _ b _ hab
    simp only [Function.comp_apply] at hab
    rw [cellIn_cons_self, cellIn_cons_self] at hab
    simp only [Val.dt.injEq, Int.cast_inj, add_right_inj, Int.natCast_inj] at hab
    exact hab

theorem load_weather_keys_nodup (csv : Table) :
    ((load_weather csv).rows.map
      (fun r => cellIn (load_weather csv).cols r "DELIVERY_MTU")).Nodup :=
  resampleHourlyMean_keys_nodup _

/-- C1: in every run whose concatenated intraday table is non-empty, the
pipeline succeeds and the final merged table has exactly as many rows as the
intraday table after round-concatenation — the left-join with the
key-deduplicated day-ahead table and the subsequent left-join with the
hourly-unique weather table neither drop nor duplicate any intraday row. -/
theorem C1_join_cardinality (dam ida1 ida2 ida3 : List XFile) (csv : Table) (s e : Date)
    (h : (load_all_idas ida1 ida2 ida3 s e).isEmptyB = false) :
    (mainPipeline dam ida1 ida2 ida3 csv s e).map (fun t => t.rows.length)
      = Except.ok (load_all_idas ida1 ida2 ida3 s e).rows.length := by
  simp only [mainPipeline, h, Bool.false_eq_true, if_false, Except.map]
  congr 1
  rw [leftMerge_rows_length _ _ _ (load_weather_keys_nodup csv)]
  split
  · exact leftMerge_rows_length _ _ _ (load_dam_keys_nodup dam s e)
  · rfl

/-- Witness for C1 at a concrete run: one duplicated-hour day-ahead file, one
one-row round-1 intraday file, a one-row weather CSV. -/
theorem C1_join_cardinality_witness :
    (load_all_idas fxIdaFiles [] [] fxD fxD).isEmptyB = false
    ∧ (mainPipeline fxDamFiles fxIdaFiles [] [] fxCsv fxD fxD).map (fun t => t.rows.length)
        = Except.ok (load_all_idas fxIdaFiles [] [] fxD fxD).rows.length :=
  ⟨by with_unfolding_all rfl,
    C1_join_cardinality fxDamFiles fxIdaFiles [] [] fxCsv fxD fxD (by with_unfolding_all rfl)⟩

/-- C10: the weather loader returns a table whose timestamp keys are all
distinct (it aggregates onto an hourly grid), so a left-join against it never
changes the left table's row count. -/
theorem C10_weather_keys_unique (csv : Table) (t : Table) :
    ((load_weather csv).rows.map
      (fun r => cellIn (load_weather csv).cols r "DELIVERY_MTU")).Nodup
    ∧ (t.leftMerge (load_weather csv) "DELIVERY_MTU").rows.length = t.rows.length :=
  ⟨load_weather_keys_nodup csv,
    leftMerge_rows_length _ _ _ (load_weather_keys_nodup csv)⟩

/-- C4: an intraday table that is empty after all three rounds makes the
pipeline abort with the diagnostic and produce no output table, while a round
whose folder contributes nothing merely returns the empty frame — an
empty-result signal, not an error. -/
theorem C4_empty_intraday_fatal (dam ida1 ida2 ida3 files : List XFile)
    (auction : String) (csv : Table) (s e : Date)
    (h : (load_all_idas ida1 ida2 ida3 s e).isEmptyB = true)
    (hf : (collectedFiles files s e).filterMap (idaProcessFile auction s e) = []) :
    mainPipeline dam ida1 ida2 ida3 csv s e
        = Except.error "❌ No IDA data loaded, cannot build dataset."
    ∧ load_ida_folder files auction s e = ⟨[], []⟩ := by
  constructor
  · simp only [mainPipeline, h, if_true]
  · simp only [load_ida_folder, hf, List.isEmpty_nil, if_true]

/-- Witness for C4: three empty round folders abort the pipeline; an empty
folder's round loader returns the empty frame. -/
theorem C4_empty_intraday_fatal_witness :
    (load_all_idas [] [] [] fxD fxD).isEmptyB = true
    ∧ (collectedFiles [] fxD fxD).filterMap (idaProcessFile "IDA1" fxD fxD) = []
    ∧ (mainPipeline [] [] [] [] fxCsv fxD fxD
        = Except.error "❌ No IDA data loaded, cannot build dataset."
      ∧ load_ida_folder [] "IDA1" fxD fxD = ⟨[], []⟩) :=
  ⟨by with_unfolding_all rfl, by with_unfolding_all rfl,
    C4_empty_intraday_fatal [] [] [] [] [] "IDA1" fxCsv fxD fxD
      (by with_unfolding_all rfl) (by with_unfolding_all rfl)⟩

/-- C8: when no day-ahead file qualifies, the loader returns the empty table
holding only the key column, the day-ahead join is skipped, and the intraday
table passes unchanged into the weather join. -/
theorem C8_empty_dam_graceful (dam ida1 ida2 ida3 : List XFile) (csv : Table) (s e : Date)
    (hq : collectedFiles dam s e = [])
    (h2 : (load_all_idas ida1 ida2 ida3 s e).isEmptyB = false) :
    load_dam_folder dam s e = ⟨["DELIVERY_MTU"], []⟩
    ∧ mainPipeline dam ida1 ida2 ida3 csv s e
        = Except.ok ((load_all_idas ida1 ida2 ida3 s e).leftMerge (load_weather csv)
            "DELIVERY_MTU") := by
  have hdam : load_dam_folder dam s e = ⟨["DELIVERY_MTU"], []⟩ := by
    simp only [load_dam_folder, hq, List.filterMap_nil, List.isEmpty_nil, if_true]
  refine ⟨hdam, ?_⟩
  have h2b : ((load_all_idas ida1 ida2 ida3 s e).rows.isEmpty
      || (load_all_idas ida1 ida2 ida3 s e).cols.isEmpty) = false := h2
  simp only [mainPipeline, h2, Bool.false_eq_true, if_false, hdam, Table.isEmptyB,
    List.isEmpty_nil, Bool.true_or, Bool.not_true, if_false, h2b]

/-- Witness for C8: an empty day-ahead folder with a nonempty intraday load. -/
theorem C8_empty_dam_graceful_witness :
    collectedFiles [] fxD fxD = []
    ∧ (load_all_idas fxIdaFiles [] [] fxD fxD).isEmptyB = false
    ∧ (load_dam_folder [] fxD fxD = ⟨["DELIVERY_MTU"], []⟩
      ∧ mainPipeline [] fxIdaFiles [] [] fxCsv fxD fxD
          = Except.ok ((load_all_idas fxIdaFiles [] [] fxD fxD).leftMerge
              (load_weather fxCsv) "DELIVERY_MTU")) :=
  ⟨by with_unfolding_all rfl, by with_unfolding_all rfl,
    C8_empty_dam_graceful [] fxIdaFiles [] [] fxCsv fxD fxD
      (by with_unfolding_all rfl) (by with_unfolding_all rfl)⟩

/-- C6: resampling to the native hourly cadence (any spelling of the hourly
alias: "60T", "1H" or "H", case-insensitively) returns the weather table
exactly equal to its input. -/
theorem C6_resample_identity (df : WTable) (freq : String)
    (h : String.mk (freq.toList.map Char.toUpper) = "60T"
      ∨ String.mk (freq.toList.map Char.toUpper) = "1H"
      ∨ String.mk (freq.toList.map Char.toUpper) = "H") :
    resample_to_frequency df freq = df := by
  have hcond : (String.mk (freq.toList.map Char.toUpper) == "60T"
      || String.mk (freq.toList.map Char.toUpper) == "1H"
      || String.mk (freq.toList.map Char.toUpper) == "H") = true := by
    simp only [Bool.or_eq_true, beq_iff_eq]
    rcases h with h | h | h
    · exact Or.inl (Or.inl h)
    · exact Or.inl (Or.inr h)
    · exact Or.inr h
  simp only [resample_to_frequency, hcond, if_true]

/-- Witness for C6: the lowercase alias "1h" is a no-op on a concrete frame. -/
theorem C6_resample_identity_witness :
    String.mk ("1h".toList.map Char.toUpper) = "1H"
    ∧ resample_to_frequency fxW "1h" = fxW :=
  ⟨by decide, C6_resample_identity fxW "1h" (Or.inr (Or.inl (by decide)))⟩

/-- C5 counterexample: with window 3 over the series [1, 2, 3], position 0
lies among the first `window − 1` rows, yet the rolling standard deviation
with `min_periods=1` is null there (the ddof-1 sample deviation of a single
observation is undefined), contradicting the claim that none of the first
`window − 1` rows is null. -/
theorem C5_rolling_counterexample :
    0 < 3 - 1 ∧ 0 < ([(1 : ℚ), 2, 3]).length
      ∧ rollingStd 3 [(1 : ℚ), 2, 3] 0 = none := by
  refine ⟨by decide, by decide, ?_⟩
  have hv : rollingVar 3 [(1 : ℚ), 2, 3] 0 = none := by with_unfolding_all rfl
  unfold rollingStd
  rw [hv, Option.map_none']

/-- C5 as amended: within the first `window − 1` positions the rolling mean
and rolling standard deviation with `min_periods=1` equal the
cumulative-so-far (expanding-window) statistic; the rolling mean is never
null there, and the rolling standard deviation is non-null exactly from
position 1 on — at position 0 it is null, since the ddof-1 deviation of one
observation is undefined. -/
theorem C5_rolling_min_periods (w i : ℕ) (xs : List ℚ)
    (h₁ : i < xs.length) (h₂ : i + 1 < w) :
    rollingMean w xs i = rollingMean (i + 1) xs i
    ∧ (rollingMean w xs i).isSome = true
    ∧ rollingStd w xs i = rollingStd (i + 1) xs i
    ∧ (i = 0 → rollingStd w xs i = none)
    ∧ (0 < i → (rollingStd w xs i).isSome = true) := by
  have hwin : rollWindow w xs i = rollWindow (i + 1) xs i := by
    unfold rollWindow
    rw [Nat.sub_eq_zero_of_le (Nat.le_of_lt h₂), Nat.sub_self]
  have hlen : (rollWindow w xs i).length = i + 1 := by
    rw [hwin]
    unfold rollWindow
    rw [Nat.sub_self, List.drop_zero, List.length_take]
    omega
  refine ⟨by simp only [rollingMean]; rw [hwin], ?_, ?_, ?_, ?_⟩
  · simp only [rollingMean, hlen]
    simp
  · simp only [rollingStd, rollingVar]
    rw [hwin]
  · intro hi
    subst hi
    simp only [rollingStd, rollingVar, hlen]
    simp
  · intro hi
    simp only [rollingStd, rollingVar, hlen]
    have hge : ¬ (i + 1 < 2) := by omega
    simp [hge]

/-- Witness for C5 as amended, at window 3, position 1 of [1, 2, 3]. -/
theorem C5_rolling_min_periods_witness :
    rollingMean 3 [(1 : ℚ), 2, 3] 1 = rollingMean 2 [(1 : ℚ), 2, 3] 1
    ∧ (rollingMean 3 [(1 : ℚ), 2, 3] 1).isSome = true
    ∧ rollingStd 3 [(1 : ℚ), 2, 3] 1 = rollingStd 2 [(1 : ℚ), 2, 3] 1
    ∧ (1 = 0 → rollingStd 3 [(1 : ℚ), 2, 3] 1 = none)
    ∧ (0 < 1 → (rollingStd 3 [(1 : ℚ), 2, 3] 1).isSome = true) :=
  C5_rolling_min_periods 3 1 [(1 : ℚ), 2, 3] (by decide) (by decide)

/-- C7 counterexample: "20240616_results.csv" has a parseable leading date
token lying inside (indeed on the boundary of) the inclusive range
[2024-06-16, 2024-06-16], yet the loaders do not collect it — collection
additionally requires the ".xlsx" extension, so the claimed
"collected if and only if the date is in range" fails as stated. -/
theorem C7_date_range_counterexample :
    parse_fname_date "20240616_results.csv" = some ⟨2024, 6, 16⟩
    ∧ (Date.code ⟨2024, 6, 16⟩ ≤ Date.code ⟨2024, 6, 16⟩
        ∧ Date.code ⟨2024, 6, 16⟩ ≤ Date.code ⟨2024, 6, 16⟩)
    ∧ fxCsvNamed ∉ collectedFiles [fxCsvNamed] ⟨2024, 6, 16⟩ ⟨2024, 6, 16⟩ := by
  refine ⟨by decide, by decide, ?_⟩
  decide

/-- C7 as amended: among the ".xlsx" files of a source directory, a file with
a parseable leading date token is collected if and only if that date lies in
[start_date, end_date] inclusive (so a file dated exactly on either bound is
collected and one dated outside is not). -/
theorem C7_date_range_boundary (files : List XFile) (f : XFile) (s e d : Date)
    (hm : f ∈ files) (hx : strEndsWith f.name ".xlsx" = true)
    (hp : parse_fname_date f.name = some d) :
    f ∈ collectedFiles files s e ↔ (s.code ≤ d.code ∧ d.code ≤ e.code) := by
  unfold collectedFiles
  rw [List.mem_filter]
  have hmem : f ∈ listXlsx files := by
    unfold listXlsx
    exact ((sortByLe_perm _ _).mem_iff).mpr (List.mem_filter.mpr ⟨hm, hx⟩)
  simp only [hmem, true_and]
  unfold fnameSelected
  rw [hp]
  simp

/-- Witness for C7 as amended: an .xlsx file dated exactly on the lower and
upper bound of the range is collected. -/
theorem C7_date_range_boundary_witness :
    fxIdaFile ∈ collectedFiles [fxIdaFile] ⟨2024, 6, 16⟩ ⟨2024, 6, 16⟩ :=
  (C7_date_range_boundary [fxIdaFile] fxIdaFile ⟨2024, 6, 16⟩ ⟨2024, 6, 16⟩ ⟨2024, 6, 16⟩
    (List.mem_cons_self _ _) (by decide) (by decide)).mpr (by decide)

/-- C9: both loaders list only ".xlsx" files, so a file with any other
extension is never collected — even when its leading 8-digit date parses and
falls inside the inclusive range. -/
theorem C9_xlsx_extension_required (files : List XFile) (f : XFile) (s e : Date)
    (h : strEndsWith f.name ".xlsx" = false) :
    f ∉ collectedFiles files s e := by
  intro hmem
  unfold collectedFiles at hmem
  have h1 := (List.mem_filter.mp hmem).1
  unfold listXlsx at h1
  have h2 := ((sortByLe_perm _ _).mem_iff).mp h1
  have h3 := (List.mem_filter.mp h2).2
  rw [h] at h3
  exact Bool.false_ne_true h3

/-- Witness for C9: a ".txt" file dated inside the range is not collected. -/
theorem C9_xlsx_extension_required_witness :
    strEndsWith fxTxtFile.name ".xlsx" = false
    ∧ parse_fname_date fxTxtFile.name = some ⟨2024, 6, 16⟩
    ∧ fxTxtFile ∉ collectedFiles [fxTxtFile] fxD fxD :=
  ⟨by decide, by decide,
    C9_xlsx_extension_required [fxTxtFile] fxTxtFile fxD fxD (by decide)⟩

theorem filterMap_toNum_map_num : ∀ (qs : List ℚ),
    (qs.map Val.num).filterMap Val.toNum = qs := by
  intro qs
  induction qs with
  | nil => rfl
  | cons q tl ih => simp [List.filterMap_cons, Val.toNum, ih]

theorem meanCells_map_num (qs : List ℚ) (h : qs ≠ []) :
    meanCells (qs.map Val.num) = Val.num (qs.sum / (qs.length : ℚ)) := by
  simp only [meanCells, filterMap_toNum_map_num]
  rw [if_neg]
  simp [h]

/-- C2: in the day-ahead aggregation stage, a timestamp key published in more
than one collected row comes out as a single row whose value in each numeric
field is the arithmetic mean of that field's duplicate values, and every
non-numeric non-key column is dropped from the aggregated table. -/
theorem C2_dam_mean_aggregation (t : Table) (k : Val) (c : String) (qs : List ℚ)
    (hc : c ∈ t.numericCols) (hck : c ≠ "DELIVERY_MTU")
    (hvals : (t.rows.filter (fun r => cellIn t.cols r "DELIVERY_MTU" == k)).map
        (fun r => cellIn t.cols r c) = qs.map Val.num)
    (hdup : 2 ≤ qs.length) :
    ((damAggregate t).rows.filter
        (fun r => cellIn (damAggregate t).cols r "DELIVERY_MTU" == k)).map
        (fun r => cellIn (damAggregate t).cols r c)
      = [Val.num (qs.sum / (qs.length : ℚ))]
    ∧ ∀ c₂ ∈ t.cols, c₂ ∉ t.numericCols → c₂ ≠ "DELIVERY_MTU" →
        c₂ ∉ (damAggregate t).cols := by
  have hqs_ne : qs ≠ [] := by
    intro hq
    subst hq
    simp at hdup
  have hkmem : k ∈ t.col "DELIVERY_MTU" := by
    have hlen : (t.rows.filter (fun r => cellIn t.cols r "DELIVERY_MTU" == k)).length
        = qs.length := by
      have := congrArg List.length hvals
      simpa using this
    have hpos : 0 < (t.rows.filter (fun r => cellIn t.cols r "DELIVERY_MTU" == k)).length := by
      omega
    obtain ⟨r, hr⟩ := List.exists_mem_of_length_pos hpos
    have hr2 := List.mem_filter.mp hr
    have hkey : cellIn t.cols r "DELIVERY_MTU" = k := by simpa using hr2.2
    exact hkey ▸ List.mem_map_of_mem _ hr2.1
  have hks : k ∈ sortByLe Val.leB (t.col "DELIVERY_MTU").dedup :=
    ((sortByLe_perm _ _).mem_iff).mpr (List.mem_dedup.mpr hkmem)
  have hks_nodup : (sortByLe Val.leB (t.col "DELIVERY_MTU").dedup).Nodup :=
    ((sortByLe_perm Val.leB _).nodup_iff).mpr (List.nodup_dedup _)
  constructor
  · simp only [damAggregate, Table.groupbyMean, List.filter_map]
    have hcomp : ((fun r => cellIn ("DELIVERY_MTU" :: t.numericCols) r "DELIVERY_MTU" == k) ∘
        fun k2 => k2 :: t.numericCols.map (fun c2 => meanCells
          ((t.rows.filter (fun r => cellIn t.cols r "DELIVERY_MTU" == k2)).map
            (fun r => cellIn t.cols r c2))))
        = fun k2 => k2 == k := by
      funext k2
      simp only [Function.comp_apply, cellIn_cons_self]
    rw [hcomp, nodup_filter_beq k _ hks_nodup hks]
    simp only [List.map_cons, List.map_nil]
    congr 1
    rw [cellIn_cons_ne _ _ _ _ _ (fun hke => hck hke.symm), cellIn_map _ _ _ hc, hvals]
    exact meanCells_map_num qs hqs_ne
  · intro c₂ _ hnn hnk hmem
    have : c₂ ∈ ("DELIVERY_MTU" :: t.numericCols) := hmem
    rcases List.mem_cons.mp this with hkk | hnum
    · exact hnk hkk
    · exact hnn hnum

/-- Witness for C2: the hour published twice with prices 50 and 52 aggregates
to their arithmetic mean (51 = (50 + 52) / 2). -/
theorem C2_dam_mean_aggregation_witness :
    "DAM_MCP" ∈ fxDamTable.numericCols
    ∧ (fxDamTable.rows.filter
          (fun r => cellIn fxDamTable.cols r "DELIVERY_MTU" == Val.dt 0)).map
          (fun r => cellIn fxDamTable.cols r "DAM_MCP")
        = ([50, 52] : List ℚ).map Val.num
    ∧ (((damAggregate fxDamTable).rows.filter
          (fun r => cellIn (damAggregate fxDamTable).cols r "DELIVERY_MTU" == Val.dt 0)).map
          (fun r => cellIn (damAggregate fxDamTable).cols r "DAM_MCP")
        = [Val.num (([50, 52] : List ℚ).sum / ((([50, 52] : List ℚ).length : ℕ) : ℚ))]
      ∧ ∀ c₂ ∈ fxDamTable.cols, c₂ ∉ fxDamTable.numericCols → c₂ ≠ "DELIVERY_MTU" →
          c₂ ∉ (damAggregate fxDamTable).cols) := by
  have hnum : fxDamTable.numericCols = ["DAM_MCP"] := by with_unfolding_all rfl
  have hmem : "DAM_MCP" ∈ fxDamTable.numericCols := by
    rw [hnum]
    exact List.mem_cons_self _ _
  exact ⟨hmem, by with_unfolding_all rfl,
    C2_dam_mean_aggregation fxDamTable (Val.dt 0) "DAM_MCP" [50, 52]
      hmem (by decide) (by with_unfolding_all rfl) (by decide)⟩

theorem colUnion_mono (c : String) :
    ∀ (ls : List (List String)) (acc : List String), c ∈ acc →
      c ∈ ls.foldl (fun acc cs => acc ++ cs.filter (fun x => !acc.contains x)) acc := by
  intro ls
  induction ls with
  | nil => intro acc h; exact h
  | cons cs rest ih =>
    intro acc h
    exact ih _ (List.mem_append_left _ h)

theorem mem_colUnion_of_mem (c : String) (cs : List String) :
    ∀ (ls : List (List String)) (acc : List String), cs ∈ ls → c ∈ cs →
      c ∈ ls.foldl (fun acc cs => acc ++ cs.filter (fun x => !acc.contains x)) acc := by
  intro ls
  induction ls with
  | nil => intro acc h; exact absurd h (List.not_mem_nil _)
  | cons cs' rest ih =>
    intro acc hmem hc
    rw [List.foldl_cons]
    rcases List.mem_cons.mp hmem with heq | htl
    · subst heq
      apply colUnion_mono
      by_cases hacc : c ∈ acc
      · exact List.mem_append_left _ hacc
      · refine List.mem_append_right _ (List.mem_filter.mpr ⟨hc, ?_⟩)
        simp only [Bool.not_eq_true']
        exact (Bool.not_eq_true _).mp (fun hct => hacc (List.elem_iff.mp hct))
    · exact ih _ htl hc

theorem mem_concatT_cols (ts : List Table) (t : Table) (c : String)
    (ht : t ∈ ts) (hc : c ∈ t.cols) : c ∈ (Table.concatT ts).cols :=
  mem_colUnion_of_mem c t.cols (ts.map Table.cols) [] (List.mem_map_of_mem _ ht) hc

theorem concatT_rows_length (ts : List Table) :
    (Table.concatT ts).rows.length = (ts.map (fun t => t.rows.length)).sum := by
  simp only [Table.concatT]
  rw [List.flatMap_def, List.length_flatten, List.map_map]
  congr 1
  apply List.map_congr_left
  intro t _
  simp

theorem concatT_rows_ne (ts : List Table) (t : Table) (ht : t ∈ ts)
    (hne : t.rows ≠ []) : (Table.concatT ts).rows ≠ [] := by
  simp only [Table.concatT]
  intro hnil
  have := List.flatMap_eq_nil_iff.mp hnil t ht
  rw [List.map_eq_nil_iff] at this
  exact hne this

theorem processFile_spec (s e : Date) (f : XFile) (t : Table)
    (h : processFile s e f = some t) :
    t.cols = f.df.cols ∧ t.rows ≠ [] ∧
      ∀ r ∈ t.rows, ∃ r₀ ∈ f.df.rows, r.length = r₀.length := by
  simp only [processFile] at h
  split at h
  · exact absurd h (by simp)
  · split at h
    · exact absurd h (by simp)
    · rename_i hkey hne
      have ht := Option.some.inj h
      subst ht
      refine ⟨rfl, by simpa using hne, ?_⟩
      intro r hr
      have hr2 := (List.mem_filter.mp hr).1
      have hr3 := (List.mem_filter.mp hr2).1
      obtain ⟨r₀, hr₀, hset⟩ := List.mem_map.mp hr3
      exact ⟨r₀, hr₀, by rw [← hset, List.length_set]⟩

theorem addConstCol_mem_cols (t : Table) (c : String) (v : Val) :
    c ∈ (t.addConstCol c v).cols := by
  simp only [Table.addConstCol]
  split
  · rename_i hc
    exact List.elem_iff.mp hc
  · exact List.mem_append_right _ (List.mem_singleton.mpr rfl)

theorem addConstCol_cols_sub (t : Table) (c : String) (v : Val) :
    t.cols ⊆ (t.addConstCol c v).cols := by
  simp only [Table.addConstCol]
  split
  · exact fun _ h => h
  · exact fun _ h => List.mem_append_left _ h

theorem addConstCol_rows_length (t : Table) (c : String) (v : Val) :
    (t.addConstCol c v).rows.length = t.rows.length := by
  simp only [Table.addConstCol]
  split <;> simp

theorem addConstCol_cell (t : Table) (c : String) (v : Val)
    (hwf : ∀ r ∈ t.rows, r.length = t.cols.length) :
    ∀ r ∈ (t.addConstCol c v).rows, cellIn (t.addConstCol c v).cols r c = v := by
  simp only [Table.addConstCol]
  split
  · rename_i hc
    intro r hr
    obtain ⟨r₀, hr₀, hset⟩ := List.mem_map.mp hr
    subst hset
    have hmem : c ∈ t.cols := List.elem_iff.mp hc
    have hidx : t.cols.indexOf c < t.cols.length := List.indexOf_lt_length.mpr hmem
    have hidx2 : t.cols.indexOf c < (r₀.set (t.cols.indexOf c) v).length := by
      rw [List.length_set, hwf r₀ hr₀]
      exact hidx
    rw [cellIn, List.getD_eq_getElem _ _ hidx2, List.getElem_set_self]
  · rename_i hc
    intro r hr
    obtain ⟨r₀, hr₀, happ⟩ := List.mem_map.mp hr
    subst happ
    have hnmem : c ∉ t.cols := fun hm => hc (List.elem_iff.mpr hm)
    rw [cellIn, List.indexOf_append_of_not_mem hnmem, List.indexOf_cons_self,
      Nat.add_zero, List.getD_append_right _ _ _ _ (by rw [hwf r₀ hr₀])]
    rw [hwf r₀ hr₀, Nat.sub_self]
    rfl

theorem idaProcessFile_basic (auction : String) (s e : Date) (f : XFile) (t' : Table)
    (h : idaProcessFile auction s e f = some t') :
    "AUCTION" ∈ t'.cols ∧ t'.rows ≠ [] := by
  simp only [idaProcessFile, Option.map_eq_some'] at h
  obtain ⟨t₀, hp, ht⟩ := h
  obtain ⟨_, hrows, _⟩ := processFile_spec s e f t₀ hp
  subst ht
  refine ⟨addConstCol_mem_cols _ _ _, ?_⟩
  intro hnil
  have := congrArg List.length hnil
  rw [addConstCol_rows_length] at this
  exact hrows (List.length_eq_zero.mp (by simpa using this))

theorem idaProcessFile_spec (auction : String) (s e : Date) (f : XFile) (t' : Table)
    (h : idaProcessFile auction s e f = some t')
    (hwf : ∀ r ∈ f.df.rows, r.length = f.df.cols.length) :
    f.df.cols ⊆ t'.cols
    ∧ (∀ r ∈ t'.rows, cellIn t'.cols r "AUCTION" = Val.str auction) := by
  simp only [idaProcessFile, Option.map_eq_some'] at h
  obtain ⟨t₀, hp, ht⟩ := h
  obtain ⟨hcols, _, hlen⟩ := processFile_spec s e f t₀ hp
  subst ht
  refine ⟨fun c hcm => addConstCol_cols_sub _ _ _ (hcols ▸ hcm), ?_⟩
  apply addConstCol_cell
  intro r hr
  obtain ⟨r₀, hr₀, hl⟩ := hlen r hr
  rw [hl, hcols]
  exact hwf r₀ hr₀

theorem mem_collectedFiles (files : List XFile) (f : XFile) (s e : Date)
    (hm : f ∈ files) (hx : strEndsWith f.name ".xlsx" = true)
    (hsel : fnameSelected s e f = true) :
    f ∈ collectedFiles files s e := by
  unfold collectedFiles
  refine List.mem_filter.mpr ⟨?_, hsel⟩
  unfold listXlsx
  exact ((sortByLe_perm _ _).mem_iff).mpr (List.mem_filter.mpr ⟨hm, hx⟩)

theorem load_ida_isEmptyB_eq (files : List XFile) (auction : String) (s e : Date) :
    (load_ida_folder files auction s e).isEmptyB
      = (load_ida_folder files auction s e).rows.isEmpty := by
  simp only [load_ida_folder]
  split
  · rfl
  · rename_i hne
    have hne2 : (collectedFiles files s e).filterMap (idaProcessFile auction s e) ≠ [] := by
      simpa using hne
    obtain ⟨t₀, ht₀⟩ := List.exists_mem_of_length_pos (List.length_pos.mpr hne2)
    obtain ⟨f, _, hp⟩ := List.mem_filterMap.mp ht₀
    obtain ⟨hauc, hrows⟩ := idaProcessFile_basic auction s e f t₀ hp
    have hcols : (Table.concatT
        ((collectedFiles files s e).filterMap (idaProcessFile auction s e))).cols ≠ [] := by
      intro hnil
      have := mem_concatT_cols _ t₀ "AUCTION" ht₀ hauc
      rw [hnil] at this
      exact List.not_mem_nil _ this
    simp only [Table.isEmptyB]
    rw [List.isEmpty_eq_false.mpr hcols, Bool.or_false]

theorem load_ida_rows_len_sum (files : List XFile) (auction : String) (s e : Date) :
    (load_ida_folder files auction s e).rows.length
      = (((collectedFiles files s e).filterMap (idaProcessFile auction s e)).map
          (fun t => t.rows.length)).sum := by
  simp only [load_ida_folder]
  split
  · rename_i hemp
    rw [List.isEmpty_iff.mp hemp]
    rfl
  · exact concatT_rows_length _

theorem sum_map_filter_len {α : Type} (f : α → ℕ) (p : α → Bool) :
    ∀ (l : List α), (∀ t ∈ l, p t = false → f t = 0) →
      ((l.filter p).map f).sum = (l.map f).sum := by
  intro l
  induction l with
  | nil => intro _; rfl
  | cons a as ih =>
    intro h
    rw [List.filter_cons]
    have ihr := ih (fun t ht hp => h t (List.mem_cons_of_mem a ht) hp)
    split
    · simp [ihr]
    · rename_i hpa
      have hz : f a = 0 := h a (List.mem_cons_self a as) (by simpa using hpa)
      simp [ihr, hz]

theorem load_all_idas_rows_len (ida1 ida2 ida3 : List XFile) (s e : Date) :
    (load_all_idas ida1 ida2 ida3 s e).rows.length
      = (load_ida_folder ida1 "IDA1" s e).rows.length
        + (load_ida_folder ida2 "IDA2" s e).rows.length
        + (load_ida_folder ida3 "IDA3" s e).rows.length := by
  have hz : ∀ t ∈ [load_ida_folder ida1 "IDA1" s e, load_ida_folder ida2 "IDA2" s e,
      load_ida_folder ida3 "IDA3" s e], (!t.isEmptyB) = false → t.rows.length = 0 := by
    intro t ht hf
    have he : t.isEmptyB = true := by simpa using hf
    have hre : t.rows.isEmpty = true := by
      simp only [List.mem_cons, List.not_mem_nil, or_false] at ht
      rcases ht with rfl | rfl | rfl
      · rw [← load_ida_isEmptyB_eq]; exact he
      · rw [← load_ida_isEmptyB_eq]; exact he
      · rw [← load_ida_isEmptyB_eq]; exact he
    rw [List.isEmpty_iff.mp hre]
    rfl
  have hsum := sum_map_filter_len (fun t => t.rows.length) (fun t => !t.isEmptyB)
    [load_ida_folder ida1 "IDA1" s e, load_ida_folder ida2 "IDA2" s e,
      load_ida_folder ida3 "IDA3" s e] hz
  simp only [load_all_idas]
  split
  · rename_i hemp
    rw [List.isEmpty_iff.mp hemp] at hsum
    simp only [List.map_nil, List.sum_nil, List.map_cons, List.sum_cons, List.sum_nil] at hsum
    have h0 : (⟨[], []⟩ : Table).rows.length = 0 := rfl
    rw [h0]
    omega
  · rw [concatT_rows_length, hsum]
    simp only [List.map_cons, List.map_nil, List.sum_cons, List.sum_nil]
    omega

/-- C3: the intraday loader adds columns verbatim — every column name of a
contributing source file appears character-identical in the loader's output —
plus one AUCTION discriminator column holding the round label in every
processed row; and concatenating the three rounds is a row-wise union, the
total row count being the sum of the three rounds' row counts, so rows from
different rounds at the same timestamp stay distinct records. -/
theorem C3_intraday_verbatim (files : List XFile) (f : XFile) (auction : String)
    (s e : Date) (t' : Table) (ida1 ida2 ida3 : List XFile)
    (hm : f ∈ files) (hx : strEndsWith f.name ".xlsx" = true)
    (hsel : fnameSelected s e f = true)
    (hp : idaProcessFile auction s e f = some t')
    (hwf : ∀ r ∈ f.df.rows, r.length = f.df.cols.length) :
    (∀ c ∈ f.df.cols, c ∈ (load_ida_folder files auction s e).cols)
    ∧ "AUCTION" ∈ (load_ida_folder files auction s e).cols
    ∧ (∀ r ∈ t'.rows, cellIn t'.cols r "AUCTION" = Val.str auction)
    ∧ (load_all_idas ida1 ida2 ida3 s e).rows.length
        = (load_ida_folder ida1 "IDA1" s e).rows.length
          + (load_ida_folder ida2 "IDA2" s e).rows.length
          + (load_ida_folder ida3 "IDA3" s e).rows.length := by
  have hframes : t' ∈ (collectedFiles files s e).filterMap (idaProcessFile auction s e) :=
    List.mem_filterMap.mpr ⟨f, mem_collectedFiles files f s e hm hx hsel, hp⟩
  have hne : ¬ ((collectedFiles files s e).filterMap
      (idaProcessFile auction s e)).isEmpty = true := by
    rw [List.isEmpty_iff]
    intro hnil
    rw [hnil] at hframes
    exact List.not_mem_nil _ hframes
  have hout : load_ida_folder files auction s e
      = Table.concatT ((collectedFiles files s e).filterMap (idaProcessFile auction s e)) := by
    simp only [load_ida_folder]
    rw [if_neg hne]
  obtain ⟨hsub, hcell⟩ := idaProcessFile_spec auction s e f t' hp hwf
  obtain ⟨hauc, _⟩ := idaProcessFile_basic auction s e f t' hp
  refine ⟨?_, ?_, hcell, load_all_idas_rows_len ida1 ida2 ida3 s e⟩
  · intro c hc
    rw [hout]
    exact mem_concatT_cols _ t' c hframes (hsub hc)
  · rw [hout]
    exact mem_concatT_cols _ t' "AUCTION" hframes hauc

/-- Witness for C3 at the one-row round-1 fixture file. -/
theorem C3_intraday_verbatim_witness :
    fnameSelected fxD fxD fxIdaFile = true
    ∧ idaProcessFile "IDA1" fxD fxD fxIdaFile = some fxIdaProcessed
    ∧ ((∀ c ∈ fxIdaFile.df.cols, c ∈ (load_ida_folder fxIdaFiles "IDA1" fxD fxD).cols)
      ∧ "AUCTION" ∈ (load_ida_folder fxIdaFiles "IDA1" fxD fxD).cols
      ∧ (∀ r ∈ fxIdaProcessed.rows,
          cellIn fxIdaProcessed.cols r "AUCTION" = Val.str "IDA1")
      ∧ (load_all_idas fxIdaFiles [] [] fxD fxD).rows.length
          = (load_ida_folder fxIdaFiles "IDA1" fxD fxD).rows.length
            + (load_ida_folder [] "IDA2" fxD fxD).rows.length
            + (load_ida_folder [] "IDA3" fxD fxD).rows.length) :=
  ⟨by decide, by with_unfolding_all rfl,
    C3_intraday_verbatim fxIdaFiles fxIdaFile "IDA1" fxD fxD fxIdaProcessed fxIdaFiles [] []
      (List.mem_cons_self _ _) (by decide) (by decide)
      (by with_unfolding_all rfl) (by decide)⟩
